import Mathlib

/-!
Formal model of the ai-tender-api compliance pipeline (chunking,
per-unit classification, aggregation, nested ZIP extraction).

Shallow-embedding conventions used throughout:
* Python `str` values that the chunker manipulates character by character
  are modelled as `List Char` (`PyStr`); offsets are `Nat`.
* Python's `start = end - CHUNK_OVERLAP; if start < 0: start = 0` is `Nat`
  truncated subtraction, which clamps at 0 in exactly the same way.
* The float comparison `cut_pos > CHUNK_SIZE * 0.6` in chunker.py is
  modelled by the exact integer comparison `10 * cut_pos > 6 * CHUNK_SIZE`;
  for every CHUNK_SIZE value used in this development (2, 10, 5000) the
  Python float product `CHUNK_SIZE * 0.6` is exactly the real value
  0.6 * CHUNK_SIZE or differs from it by less than 1/2 ulp in a direction
  that does not change the integer comparison, so the two agree.
* Python `round(x, 3)` is modelled as round-half-to-even on the exact
  rational, returned as an integer count of thousandths.
* Fallible calls return `Except String _`, the `String` being Python's
  `str(e)` for the exception `e` that was raised; loops without a
  syntactic termination measure take explicit fuel and return `none`
  when the fuel runs out.
-/

/-! ### Verdicts and aggregation (ai_compare.py, main.py) -/

/-- Three-state compliance status, the spec's `Verdict.status` enum. -/
inductive Status where
  | green
  | yellow
  | red
deriving DecidableEq

/-- The status strings used throughout the source. -/
def statusStr : Status → String
  | .green => "green"
  | .yellow => "yellow"
  | .red => "red"

/-- Python `round(g / max(1, t), 3)` computed on the exact rational and
returned in thousandths; ties round half to even, as Python's `round`. -/
def pyRound3 (g t : Nat) : Nat :=
  let d := max 1 t
  let q := (1000 * g) / d
  let r := (1000 * g) % d
  if 2 * r < d then q
  else if d < 2 * r then q + 1
  else if q % 2 = 0 then q else q + 1

/-- The `reason` object of a verdict. -/
structure Reason where
  issue : String
  risk : String
  note : String
deriving DecidableEq

/-- A per-requirement result as produced by `json.loads` on the model
response: an arbitrary dict of which the source later reads `status`
(possibly absent, accessed with `dict.get`) and `reason`. -/
structure RawVerdict where
  status? : Option String := none
  icon? : Option String := none
  reason? : Option Reason := none
deriving DecidableEq

/-- ai_compare.evaluate_requirement.  `classify` models the composite
`client.chat.completions.create` call plus `json.loads(raw)`; `.error e`
models any raised exception with `str(e) = e`.  On success the parsed dict
is returned as-is; on failure the fail-safe yellow verdict is returned
with `note = str(e)`. -/
def evaluate_requirement (classify : String → String → Except String RawVerdict)
    (requirement candidate_full_text : String) : RawVerdict :=
  match classify requirement candidate_full_text with
  | .ok parsed => parsed
  | .error e =>
    { status? := some "yellow"
      icon? := some "🟡"
      reason? := some { issue := "AI evaluation error"
                        risk := "Requirement could not be fully evaluated"
                        note := e } }

/-- Number of findings the loop of ai_compare.evaluate_candidate counts as
green: `status = eval_result.get("status", "yellow")` then
`if status == "green"`. -/
def countGreen (sts : List (Option String)) : Nat :=
  sts.countP fun s => s.getD "yellow" == "green"

/-- Findings counted as yellow: the `elif status == "yellow"` branch,
reached when the green test failed. -/
def countYellow (sts : List (Option String)) : Nat :=
  sts.countP fun s => !(s.getD "yellow" == "green") && (s.getD "yellow" == "yellow")

/-- Findings counted as red: the `else` branch, i.e. a present status that
is neither `"green"` nor `"yellow"`. -/
def countRed (sts : List (Option String)) : Nat :=
  sts.countP fun s => !(s.getD "yellow" == "green") && !(s.getD "yellow" == "yellow")

/-- The FINAL DECISION LOGIC and confidence computation of
ai_compare.evaluate_candidate, factored out of its loop as a function of
the findings' `status` fields (in loop order); `evaluate_candidate` below
uses it unchanged.  Confidence is `round(green / max(1, total_reqs), 3)`. -/
def evaluate_candidate_agg (sts : List (Option String)) : String × Nat :=
  let green := countGreen sts
  let yellow := countYellow sts
  let red := countRed sts
  let final_status := if red > 0 then "red"
    else if yellow > 0 then "yellow" else "green"
  (final_status, pyRound3 green sts.length)

/-- Metadata recorded per extracted archive member (`files_collected`
entries; field `type` is called `ftype` because `type` reads poorly in
Lean). -/
structure FileMeta where
  name : String
  size : Nat
  ftype : String
deriving DecidableEq

/-- The candidate profile built by candidate_parser.parse_candidate_zip. -/
structure Candidate where
  name : String
  files : List FileMeta
  full_text : String
  chunks : List String
deriving DecidableEq

/-- One element of evaluate_candidate's `results` list: the verdict dict
with the `requirement` and `category` keys added. -/
structure Finding where
  verdict : RawVerdict
  requirement : String
  category : String
deriving DecidableEq

/-- The dict returned by ai_compare.evaluate_candidate (the
model-generated `summary` and the derived `icon` are omitted: they carry
no information about status, confidence, counts or findings). -/
structure CandidateResult where
  candidate : String
  files : List FileMeta
  status : String
  confidence : Nat
  requirements_total : Nat
  green : Nat
  yellow : Nat
  red : Nat
  findings : List Finding
deriving DecidableEq

/-- ai_compare.evaluate_candidate: flattens the requirements dict (an
insertion-ordered association list of category to items), evaluates each
item against the candidate's full text, counts statuses and applies the
final decision logic. -/
def evaluate_candidate (classify : String → String → Except String RawVerdict)
    (requirements : List (String × List String)) (candidate : Candidate) :
    CandidateResult :=
  let results : List Finding :=
    requirements.flatMap fun ci =>
      ci.2.map fun req =>
        { verdict := evaluate_requirement classify req candidate.full_text
          requirement := req
          category := ci.1 }
  let sts := results.map fun f => f.verdict.status?
  let agg := evaluate_candidate_agg sts
  { candidate := candidate.name
    files := candidate.files
    status := agg.1
    confidence := agg.2
    requirements_total := results.length
    green := countGreen sts
    yellow := countYellow sts
    red := countRed sts
    findings := results }

/-- A chunk record as consumed by main.combine_chunk_results, which reads
only the `status` field of each record. -/
structure ChunkRec where
  status : String
deriving DecidableEq

/-- main.combine_chunk_results: returns `(result, confidence)`.  The
derived icon and final_note strings and the model-generated summary are
omitted (they are functions of `result` or external calls). -/
def combine_chunk_results (chunks : List ChunkRec) : String × Nat :=
  let statuses := chunks.map (·.status)
  let green_count := statuses.count "green"
  let yellow_count := statuses.count "yellow"
  let red_count := statuses.count "red"
  let result := if red_count > 0 then "red"
    else if yellow_count > 0 then "yellow" else "green"
  (result, pyRound3 green_count chunks.length)

/-! ### Chunker (chunker.py) -/

/-- Python strings as character lists. -/
abbrev PyStr := List Char

/-- Python's default `str.strip` whitespace set (ASCII part; the texts in
this development contain no non-ASCII whitespace). -/
def pyIsSpace (c : Char) : Bool :=
  c = ' ' || c = '\t' || c = '\n' || c = '\r' || c = '\x0b' || c = '\x0c'

/-- Python `s.strip()`. -/
def pyStrip (s : PyStr) : PyStr :=
  ((s.dropWhile pyIsSpace).reverse.dropWhile pyIsSpace).reverse

/-- Python `s[a:b]` for `0 ≤ a ≤ b` (out-of-range indices clamp). -/
def pySlice (s : PyStr) (a b : Nat) : PyStr :=
  (s.drop a).take (b - a)

/-- Helper for `pyRfind`: scans left to right remembering the last hit. -/
def pyRfindAux (c : Char) : PyStr → Nat → Int → Int
  | [], _, best => best
  | x :: xs, i, best => pyRfindAux c xs (i + 1) (if x = c then (i : Int) else best)

/-- Python `s.rfind(c)`: highest index of `c` in `s`, `-1` when absent. -/
def pyRfind (s : PyStr) (c : Char) : Int :=
  pyRfindAux c s 0 (-1)

/-- What one iteration of chunker.chunk_text's while-loop records: the
window `[s, e)` it sliced (after the sentence-boundary cut) and the
trimmed chunk it appended, `none` when the trimmed chunk was empty and
therefore dropped.  The source keeps only the trimmed strings; the window
bounds, which the source discards, are recorded so that coverage claims
can be stated. -/
structure Window where
  s : Nat
  e : Nat
  kept : Option PyStr
deriving DecidableEq

/-- `if chunk: chunks.append(chunk)`: an empty trimmed chunk is dropped. -/
def keep (t : PyStr) : Option PyStr :=
  if t = [] then none else some t

/-- One iteration of chunker.chunk_text's while-loop at window start
`start`, with `CHUNK_SIZE = cs` and `CHUNK_OVERLAP = ov` (the source's
module constants made explicit parameters; config.py sets 5000 and 300).
Returns the recorded window and the next loop start
(`end - CHUNK_OVERLAP` clamped at 0, which is `Nat` subtraction). -/
def chunkIter (cs ov : Nat) (text : PyStr) (start : Nat) : Window × Nat :=
  let end0 := start + cs
  let chunk0 := pySlice text start end0
  if end0 < text.length then
    let cut_pos := max (pyRfind chunk0 '.') (pyRfind chunk0 '\n')
    if 10 * cut_pos > 6 * (cs : Int) then
      let e := start + cut_pos.toNat + 1
      (⟨start, e, keep (pyStrip (chunk0.take (cut_pos.toNat + 1)))⟩, e - ov)
    else
      (⟨start, end0, keep (pyStrip chunk0)⟩, end0 - ov)
  else
    (⟨start, end0, keep (pyStrip chunk0)⟩, end0 - ov)

/-- The while-loop of chunker.chunk_text over the stripped text, run with
explicit fuel (the loop has no syntactic termination measure; `none` means
the fuel ran out before the loop ended). -/
def chunkAux (cs ov : Nat) (text : PyStr) : Nat → Nat → Option (List Window)
  | 0, _ => none
  | fuel + 1, start =>
    if start < text.length then
      let wn := chunkIter cs ov text start
      match chunkAux cs ov text fuel wn.2 with
      | some ws => some (wn.1 :: ws)
      | none => none
    else
      some []

/-- chunker.chunk_text including its `if not text: return []` guard and
the initial `text = text.strip()`, returning every examined window. -/
def chunkWindows (cs ov : Nat) (t : PyStr) (fuel : Nat) : Option (List Window) :=
  if t = [] then some [] else chunkAux cs ov (pyStrip t) fuel 0

/-- chunker.chunk_text's actual return value: the emitted (trimmed,
non-empty) chunks, in order. -/
def chunk_text (cs ov : Nat) (t : PyStr) (fuel : Nat) : Option (List PyStr) :=
  (chunkWindows cs ov t fuel).map (List.filterMap Window.kept)

/-- An emitted chunk together with its covering window: the spec's `Chunk`
record with `start_offset` / `end_offset`. -/
structure Chunk where
  text : PyStr
  startOff : Nat
  endOff : Nat
deriving DecidableEq

/-- The emitted chunks of chunk_text, each with the `[start, end)` window
of the iteration that produced it. -/
def chunkRanges (cs ov : Nat) (t : PyStr) (fuel : Nat) : Option (List Chunk) :=
  (chunkWindows cs ov t fuel).map
    (List.filterMap fun w => w.kept.map fun tx => ⟨tx, w.s, w.e⟩)

/-- The guaranteed minimal forward step of one chunk_text iteration when
`ov ≤ (6 * cs) / 10` (used by the amended C5 statement). -/
def chunkMinStep (cs ov : Nat) : Nat :=
  min (cs - ov) ((6 * cs) / 10 + 2 - ov)

/-! ### Nested ZIP extraction (extractor_zip.py, main.py) -/

/-- A member of a (possibly nested) archive, as relevant to
extractor_zip.extract_zip: either a leaf file whose format decoder
(extract_pdf / extract_docx / extract_edoc / extract_txt, all of which
fail soft) yields `text`, or a nested archive with its own members. -/
inductive ZEntry where
  | leaf (name : String) (size : Nat) (text : String)
  | zipe (name : String) (size : Nat) (entries : List ZEntry)

/-- Member name (`item` in the source's namelist loop). -/
def ZEntry.zname : ZEntry → String
  | .leaf n _ _ => n
  | .zipe n _ _ => n

/-- Member size (`os.path.getsize(tmp_file)` after extraction). -/
def ZEntry.zsize : ZEntry → Nat
  | .leaf _ s _ => s
  | .zipe _ s _ => s

/-- `os.path.splitext(item)[1].lower()`.  Member names in this development
contain no directory components and no leading dots, the cases where
Python's splitext rules differ from "text after the last dot". -/
def splitextExt (name : String) : String :=
  let l := name.toList
  let i := pyRfind l '.'
  if i < 0 then "" else String.mk ((l.drop i.toNat).map Char.toLower)

/-- config.ALLOWED_EXTENSIONS. -/
def ALLOWED_EXTENSIONS : List String := [".pdf", ".docx", ".edoc", ".txt", ".zip"]

/-- The text the leaf decoder chosen by extension produces: the entry's
decoded text for a leaf; `""` when the bytes are actually a nested archive
(every decoder fails soft on undecodable bytes). -/
def decodeLeaf : ZEntry → String
  | .leaf _ _ tx => tx
  | .zipe _ _ _ => ""

/-- The message of the ValueError raised on the depth guard. -/
def depthExceededMsg : String := "Nested ZIP depth exceeded allowed limit."

/-- The message of the ValueError raised on the member-count guard. -/
def countMsg (n limit : Nat) : String :=
  "ZIP contains " ++ toString n ++ " files (limit " ++ toString limit ++ ")"

/-- extractor_zip.extract_zip with `MAX_ZIP_DEPTH = maxDepth` and
`MAX_ZIP_FILES = maxFiles` (config.py sets 3 and 100).  `fuel` bounds the
recursion (`none` = fuel exhausted; `maxDepth + 2` always suffices because
the depth guard fires first).  `.error` models a raised exception
propagating upward: in the source neither the guards' ValueError nor the
recursive call for nested ZIPs is wrapped in any try/except, so one error
aborts the entire walk. -/
def extract_zip (maxDepth maxFiles : Nat) :
    Nat → Nat → List ZEntry → Option (Except String (String × List FileMeta))
  | 0, _, _ => none
  | fuel + 1, depth, entries =>
    if depth > maxDepth then some (.error depthExceededMsg)
    else if entries.length > maxFiles then
      some (.error (countMsg entries.length maxFiles))
    else
      entries.foldl
        (fun acc e =>
          match acc with
          | none => none
          | some (.error msg) => some (.error msg)
          | some (.ok (text, files)) =>
            let ext := splitextExt e.zname
            if ALLOWED_EXTENSIONS.contains ext then
              let meta : FileMeta := ⟨e.zname, e.zsize, ext.drop 1⟩
              if ext = ".zip" then
                match e with
                | .zipe _ _ nested =>
                  match extract_zip maxDepth maxFiles fuel (depth + 1) nested with
                  | none => none
                  | some (.error msg) => some (.error msg)
                  | some (.ok (ntext, nfiles)) =>
                    some (.ok (text ++ ntext, files ++ meta :: nfiles))
                | .leaf _ _ _ => some (.error "File is not a zip file")
              else
                some (.ok (text ++ decodeLeaf e, files ++ [meta]))
            else acc)
        (some (.ok ("", [])))

/-- The member loop of main.safe_extract_zip: `(name, decoded text)` per
member, in listing order (per-member extraction failures already degrade
to `""` inside the source loop); once the running total passes
MAX_TEXT_SIZE the current text is cut to 50000 characters and the loop
breaks. -/
def sezLoop (maxText : Nat) : Nat → List (String × String) → List String
  | _, [] => []
  | total, (_, text) :: rest =>
    if total + text.length > maxText then [text.take 50000]
    else text :: sezLoop maxText (total + text.length) rest

/-- main.safe_extract_zip: returns `""` outright when the archive lists
more than MAX_ZIP_FILES (30 in main.py) members, otherwise joins the
member texts with newlines. -/
def safe_extract_zip (maxFiles maxText : Nat)
    (entries : List (String × String)) : String :=
  if entries.length > maxFiles then ""
  else String.intercalate "\n" (sezLoop maxText 0 entries)

/-! ### Multi-candidate parsing (candidate_parser.py) -/

/-- candidate_parser.parse_multiple_candidates.  `parse` models
parse_candidate_zip (download, extract, chunk); a raised exception there
is logged and the loop continues with the next URL. -/
def parse_multiple_candidates (parse : String → Except String Candidate) :
    List String → List Candidate
  | [] => []
  | url :: rest =>
    match parse url with
    | .ok c => c :: parse_multiple_candidates parse rest
    | .error _ => parse_multiple_candidates parse rest

/-! ### Concrete fixtures used by counterexamples and witnesses -/

/-- A classifier stub that raises an exception whose `str` is empty
(e.g. `raise Exception()`). -/
def exRaise : String → String → Except String RawVerdict := fun _ _ => .error ""

/-- A classifier stub that raises an exception with text "boom". -/
def exRaiseBoom : String → String → Except String RawVerdict :=
  fun _ _ => .error "boom"

/-- A classifier stub whose response parses to a dict without a `status`
key. -/
def exNoStatus : String → String → Except String RawVerdict := fun _ _ => .ok {}

/-- A minimal candidate profile. -/
def exCand : Candidate :=
  { name := "c", files := [], full_text := "offer text", chunks := [] }

/-- Text with an interior whitespace-only window for CHUNK_SIZE 2. -/
def exGapText : PyStr := "ab  cd".toList

/-- Text on which the loop with CHUNK_SIZE 10 / CHUNK_OVERLAP 9 cuts at
the period and clamps the next start back to 0 forever. -/
def exLoopText : PyStr := "aaaaaaa.aaaaaaa.aaaa".toList

/-- A non-empty 8-character text, shorter than CHUNK_SIZE 10. -/
def exShortText : PyStr := "abcdefgh".toList

/-- A text with surrounding whitespace whose trimmed form is short. -/
def exWsText : PyStr := " hi ".toList

/-- A parser stub that fails on every URL except "b". -/
def exParse : String → Except String Candidate := fun url =>
  if url = "b" then .ok { name := "b", files := [], full_text := "", chunks := [] }
  else .error "download failed"

/-- The chain of `n` ZIPs nested around one text file. -/
def nest : Nat → ZEntry
  | 0 => .leaf "doc.txt" 5 "hello"
  | n + 1 => .zipe "inner.zip" 10 [nest n]

/-- An archive listing of 101 text members (config limit is 100). -/
def exManyEntries : List ZEntry := List.replicate 101 (.leaf "a.txt" 1 "x")

/-- An archive listing of 31 text members (main.py's limit is 30). -/
def exMany31 : List ZEntry := List.replicate 31 (.leaf "a.txt" 1 "x")

/-- 31 (name, text) members for safe_extract_zip. -/
def exSez31 : List (String × String) := List.replicate 31 ("a.txt", "x")

/-! ### Helper lemmas about status counting -/

lemma countGreen_map_status (l : List Status) :
    countGreen (l.map fun v => some (statusStr v)) = l.count .green := by
  induction l with
  | nil => rfl
  | cons v t ih =>
    unfold countGreen at *
    cases v <;>
      simp_all [statusStr, List.countP_cons, List.count_cons]

lemma countYellow_map_status (l : List Status) :
    countYellow (l.map fun v => some (statusStr v)) = l.count .yellow := by
  induction l with
  | nil => rfl
  | cons v t ih =>
    unfold countYellow at *
    cases v <;>
      simp_all [statusStr, List.countP_cons, List.count_cons]

lemma countRed_map_status (l : List Status) :
    countRed (l.map fun v => some (statusStr v)) = l.count .red := by
  induction l with
  | nil => rfl
  | cons v t ih =>
    unfold countRed at *
    cases v <;>
      simp_all [statusStr, List.countP_cons, List.count_cons]

lemma count_map_statusStr (l : List Status) (v : Status) :
    (l.map statusStr).count (statusStr v) = l.count v := by
  induction l with
  | nil => rfl
  | cons w t ih =>
    cases w <;> cases v <;>
      simp_all [statusStr, List.count_cons]

lemma counts_partition (sts : List (Option String)) :
    countGreen sts + countYellow sts + countRed sts = sts.length := by
  induction sts with
  | nil => rfl
  | cons s t ih =>
    unfold countGreen countYellow countRed at *
    by_cases h1 : (s.getD "yellow" == "green") = true <;>
      by_cases h2 : (s.getD "yellow" == "yellow") = true <;>
        simp_all [List.countP_cons] <;> omega

lemma pyRound3_le_1000 (g t : Nat) (h : g ≤ max 1 t) : pyRound3 g t ≤ 1000 := by
  simp only [pyRound3]
  have hd1 : 1 ≤ max 1 t := le_max_left 1 t
  have hdm := Nat.div_add_mod (1000 * g) (max 1 t)
  have hr : (1000 * g) % (max 1 t) < max 1 t := Nat.mod_lt _ (by omega)
  have hg : 1000 * g ≤ 1000 * max 1 t := Nat.mul_le_mul_left 1000 h
  by_cases hA9 : (1000 * g) / (max 1 t) ≤ 999
  · split_ifs <;> omega
  · have hA : (1000 * g) / (max 1 t) ≤ 1000 := by
      have h2 : (1000 * g) / (max 1 t) ≤ (1000 * max 1 t) / (max 1 t) :=
        Nat.div_le_div_right hg
      have h3 : (1000 * max 1 t) / (max 1 t) = 1000 :=
        Nat.mul_div_cancel 1000 (by omega)
      omega
    have hA1000 : (1000 * g) / (max 1 t) = 1000 := by omega
    rw [hA1000] at hdm
    split_ifs <;> omega

/-! ### Claim C1 -/

/-- Claim C1 (confirmed): for every finite list of three-state per-unit
verdicts, both aggregators — the factored final-decision logic of
ai_compare.evaluate_candidate and main.combine_chunk_results — return
status red iff some verdict is red, else yellow iff some verdict is
yellow, else green (the empty list gives green), with confidence
`round(count(green) / max(1, total), 3)`. -/
theorem c1_aggregation_dominance_confidence (l : List Status) :
    evaluate_candidate_agg (l.map fun v => some (statusStr v)) =
      ((if Status.red ∈ l then "red"
        else if Status.yellow ∈ l then "yellow" else "green"),
        pyRound3 (l.count .green) l.length)
    ∧ combine_chunk_results (l.map fun v => ⟨statusStr v⟩) =
      ((if Status.red ∈ l then "red"
        else if Status.yellow ∈ l then "yellow" else "green"),
        pyRound3 (l.count .green) l.length) := by
  have hmap : (List.map (fun v => (⟨statusStr v⟩ : ChunkRec)) l).map (·.status)
      = l.map statusStr := by
    simp [List.map_map]
  constructor
  · simp only [evaluate_candidate_agg]
    rw [countGreen_map_status, countYellow_map_status, countRed_map_status]
    simp only [List.length_map]
    by_cases hr : Status.red ∈ l
    · have h1 : 0 < l.count Status.red := List.count_pos_iff.mpr hr
      simp [hr, h1]
    · have h0 : l.count Status.red = 0 := List.count_eq_zero.mpr hr
      by_cases hy : Status.yellow ∈ l
      · have h1 : 0 < l.count Status.yellow := List.count_pos_iff.mpr hy
        simp [hr, hy, h0, h1]
      · have h1 : l.count Status.yellow = 0 := List.count_eq_zero.mpr hy
        simp [hr, hy, h0, h1]
  · simp only [combine_chunk_results]
    rw [hmap]
    have hg := count_map_statusStr l .green
    have hy' := count_map_statusStr l .yellow
    have hr' := count_map_statusStr l .red
    simp only [statusStr] at hg hy' hr'
    rw [hg, hy', hr']
    simp only [List.length_map]
    by_cases hr : Status.red ∈ l
    · have h1 : 0 < l.count Status.red := List.count_pos_iff.mpr hr
      simp [hr, h1]
    · have h0 : l.count Status.red = 0 := List.count_eq_zero.mpr hr
      by_cases hy : Status.yellow ∈ l
      · have h1 : 0 < l.count Status.yellow := List.count_pos_iff.mpr hy
        simp [hr, hy, h0, h1]
      · have h1 : l.count Status.yellow = 0 := List.count_eq_zero.mpr hy
        simp [hr, hy, h0, h1]

/-! ### Claim C3 -/

/-- Claim C3 (confirmed): both aggregators are order-independent — on any
permutation of the inputs they return the same (final_status, confidence)
pair.  Stated for arbitrary status strings (not only the three-state
enum), which is what the code actually receives. -/
theorem c3_aggregation_order_independent
    (l l' : List (Option String)) (c c' : List ChunkRec)
    (hl : l.Perm l') (hc : c.Perm c') :
    evaluate_candidate_agg l = evaluate_candidate_agg l'
    ∧ combine_chunk_results c = combine_chunk_results c' := by
  constructor
  · unfold evaluate_candidate_agg countGreen countYellow countRed
    rw [hl.countP_eq, hl.countP_eq, hl.countP_eq, hl.length_eq]
  · have hmapc := hc.map fun x : ChunkRec => x.status
    simp only [combine_chunk_results]
    rw [hmapc.count_eq, hmapc.count_eq, hmapc.count_eq, hc.length_eq]

/-- Witness for C3 at concrete permuted lists. -/
theorem c3_aggregation_order_independent_witness :
    ([some "red", some "green"] : List (Option String)).Perm
        [some "green", some "red"]
    ∧ ([⟨"green"⟩, ⟨"yellow"⟩] : List ChunkRec).Perm [⟨"yellow"⟩, ⟨"green"⟩]
    ∧ (evaluate_candidate_agg [some "red", some "green"] =
          evaluate_candidate_agg [some "green", some "red"]
      ∧ combine_chunk_results [⟨"green"⟩, ⟨"yellow"⟩] =
          combine_chunk_results [⟨"yellow"⟩, ⟨"green"⟩]) :=
  ⟨List.Perm.swap _ _ _, List.Perm.swap _ _ _,
    c3_aggregation_order_independent _ _ _ _
      (List.Perm.swap _ _ _) (List.Perm.swap _ _ _)⟩

/-! ### Claim C2 -/

/-- Counterexample to claim C2: a classifier that raises an exception
whose text is empty (`str(e) = ""`, e.g. `raise Exception()`) makes
evaluate_requirement return the fail-safe yellow verdict whose
`reason.note` is the empty string — the claimed "non-empty reason.note"
does not hold for this failure. -/
theorem c2_counterexample :
    evaluate_requirement exRaise "req" "cand" =
      { status? := some "yellow", icon? := some "🟡",
        reason? := some { issue := "AI evaluation error",
                          risk := "Requirement could not be fully evaluated",
                          note := "" } }
    ∧ ((evaluate_requirement exRaise "req" "cand").reason?.map Reason.note)
        = some "" :=
  ⟨rfl, rfl⟩

/-- Claim C2 (amended): if the classifier call or the parsing of its
response raises an exception `e`, evaluate_requirement does not propagate
it and returns the synthetic yellow verdict whose `reason.note` equals
`str(e)` — in particular it is non-empty whenever `str(e)` is non-empty —
and the result's status is never green or red; hence a classifier that
always raises can never yield a green or red per-unit verdict. -/
theorem c2_failure_yields_yellow
    (classify : String → String → Except String RawVerdict)
    (req cand e : String) (h : classify req cand = .error e) :
    evaluate_requirement classify req cand =
      { status? := some "yellow", icon? := some "🟡",
        reason? := some { issue := "AI evaluation error",
                          risk := "Requirement could not be fully evaluated",
                          note := e } }
    ∧ (evaluate_requirement classify req cand).status? ≠ some "green"
    ∧ (evaluate_requirement classify req cand).status? ≠ some "red"
    ∧ (e ≠ "" → ∃ r, (evaluate_requirement classify req cand).reason? = some r
        ∧ r.note ≠ "") := by
  unfold evaluate_requirement
  rw [h]
  exact ⟨rfl, by simp, by simp, fun he => ⟨_, rfl, he⟩⟩

/-- Witness for the amended C2 at a concrete always-raising classifier. -/
theorem c2_failure_yields_yellow_witness :
    exRaiseBoom "r" "c" = .error "boom"
    ∧ (evaluate_requirement exRaiseBoom "r" "c" =
        { status? := some "yellow", icon? := some "🟡",
          reason? := some { issue := "AI evaluation error",
                            risk := "Requirement could not be fully evaluated",
                            note := "boom" } }
      ∧ (evaluate_requirement exRaiseBoom "r" "c").status? ≠ some "green"
      ∧ (evaluate_requirement exRaiseBoom "r" "c").status? ≠ some "red"
      ∧ ("boom" ≠ "" → ∃ r,
          (evaluate_requirement exRaiseBoom "r" "c").reason? = some r
          ∧ r.note ≠ "")) :=
  ⟨rfl, c2_failure_yields_yellow exRaiseBoom "r" "c" "boom" rfl⟩

/-! ### Claim C9 -/

/-- Counterexample to claim C9: with a parser that fails on URL "a" and
succeeds on URL "b", parse_multiple_candidates returns only the candidate
for "b" — the failed candidate does not appear in the output at all, so in
particular no red-status evaluation is produced for it. -/
theorem c9_counterexample :
    parse_multiple_candidates exParse ["a", "b"] =
      [{ name := "b", files := [], full_text := "", chunks := [] }]
    ∧ (parse_multiple_candidates exParse ["a", "b"]).length = 1
    ∧ exParse "a" = .error "download failed" :=
  ⟨rfl, rfl, rfl⟩

/-- Claim C9 (amended): a failure parsing one candidate never aborts the
processing of the other candidates, but the failed candidate is silently
omitted: the output is exactly the list of successfully parsed candidates
in input order. -/
theorem c9_failure_isolation_but_dropped
    (parse : String → Except String Candidate) (urls : List String) :
    parse_multiple_candidates parse urls
      = urls.filterMap fun u => (parse u).toOption := by
  induction urls with
  | nil => rfl
  | cons u rest ih =>
    cases h : parse u <;>
      simp [parse_multiple_candidates, h, List.filterMap_cons, Except.toOption, ih]

/-! ### Claim C10 -/

/-- Counterexample to claim C10: a per-requirement record whose parsed
dict has no `status` key is counted as yellow (the `.get` default), not as
red as the claim states. -/
theorem c10_counterexample :
    (evaluate_candidate exNoStatus [("legal", ["r1"])] exCand).red = 0
    ∧ (evaluate_candidate exNoStatus [("legal", ["r1"])] exCand).yellow = 1
    ∧ ((evaluate_candidate exNoStatus [("legal", ["r1"])] exCand).findings.map
        fun f => f.verdict.status?) = [none] :=
  ⟨rfl, rfl, rfl⟩

/-- Claim C10 (amended): for every requirements dictionary and candidate,
evaluate_candidate satisfies green + yellow + red = requirements_total —
where a record with a present status that is neither "green" nor "yellow"
counts as red, while a record with a missing status counts as yellow (the
`.get("status", "yellow")` default) — and the reported confidence
`round(green / max(1, total), 3)` always lies in [0, 1]. -/
theorem c10_counts_partition_confidence_bounded
    (classify : String → String → Except String RawVerdict)
    (requirements : List (String × List String)) (cand : Candidate) :
    (evaluate_candidate classify requirements cand).green
      + (evaluate_candidate classify requirements cand).yellow
      + (evaluate_candidate classify requirements cand).red
      = (evaluate_candidate classify requirements cand).requirements_total
    ∧ (evaluate_candidate classify requirements cand).confidence ≤ 1000 := by
  simp only [evaluate_candidate, evaluate_candidate_agg]
  constructor
  · rw [counts_partition]
    simp [List.length_map]
  · apply pyRound3_le_1000
    exact le_trans (List.countP_le_length _) (le_max_right _ _)

/-! ### Helper lemmas about pyStrip and the chunk loop -/

lemma dropWhile_dropWhile_same (p : α → Bool) (l : List α) :
    (l.dropWhile p).dropWhile p = l.dropWhile p := by
  induction l with
  | nil => rfl
  | cons a t ih =>
    by_cases h : p a = true
    · simp [List.dropWhile_cons, h, ih]
    · simp [List.dropWhile_cons, h]

lemma length_dropWhile_le' (p : α → Bool) (l : List α) :
    (l.dropWhile p).length ≤ l.length := by
  induction l with
  | nil => simp
  | cons a t ih =>
    by_cases h : p a = true
    · simp [List.dropWhile_cons, h]
      omega
    · simp [List.dropWhile_cons, h]

lemma head?_of_dropWhile_eq_self (p : α → Bool) (l : List α)
    (h : l.dropWhile p = l) : ∀ a, l.head? = some a → p a = false := by
  intro a ha
  cases l with
  | nil => simp at ha
  | cons b t =>
    have hba : b = a := by simpa using ha
    subst hba
    by_contra hp
    have hp' : p b = true := by simpa using hp
    rw [List.dropWhile_cons, if_pos hp'] at h
    have h1 := length_dropWhile_le' p t
    have h2 := congrArg List.length h
    simp at h2
    omega

lemma dropWhile_eq_self_of_head? (p : α → Bool) (l : List α)
    (h : ∀ a, l.head? = some a → p a = false) : l.dropWhile p = l := by
  cases l with
  | nil => rfl
  | cons a t => simp [List.dropWhile_cons, h a rfl]

lemma getLast?_dropWhile (p : α → Bool) (l : List α) (h : l.dropWhile p ≠ []) :
    (l.dropWhile p).getLast? = l.getLast? := by
  induction l with
  | nil => simp at h
  | cons a t ih =>
    by_cases pa : p a = true
    · rw [List.dropWhile_cons, if_pos pa] at h ⊢
      have ht : t ≠ [] := by
        intro h0
        subst h0
        simp at h
      obtain ⟨b, t', rfl⟩ := List.exists_cons_of_ne_nil ht
      rw [List.getLast?_cons_cons]
      exact ih h
    · rw [List.dropWhile_cons, if_neg pa]

lemma pyStrip_dropWhile_eq (s : PyStr) :
    (pyStrip s).dropWhile pyIsSpace = pyStrip s := by
  apply dropWhile_eq_self_of_head?
  intro a ha
  unfold pyStrip at ha
  rw [List.head?_reverse] at ha
  by_cases hB : (s.dropWhile pyIsSpace).reverse.dropWhile pyIsSpace = []
  · rw [hB] at ha
    simp at ha
  · rw [getLast?_dropWhile _ _ hB, List.getLast?_reverse] at ha
    exact head?_of_dropWhile_eq_self _ _ (dropWhile_dropWhile_same _ _) a ha

lemma pyStrip_idem (s : PyStr) : pyStrip (pyStrip s) = pyStrip s := by
  show (((pyStrip s).dropWhile pyIsSpace).reverse.dropWhile pyIsSpace).reverse
      = pyStrip s
  rw [pyStrip_dropWhile_eq]
  unfold pyStrip
  rw [List.reverse_reverse, dropWhile_dropWhile_same]

lemma pyStrip_nil : pyStrip [] = [] := rfl

lemma chunkIter_s (cs ov : Nat) (text : PyStr) (start : Nat) :
    (chunkIter cs ov text start).1.s = start := by
  simp only [chunkIter]
  split_ifs <;> rfl

lemma chunkIter_next (cs ov : Nat) (text : PyStr) (start : Nat) :
    (chunkIter cs ov text start).2 = (chunkIter cs ov text start).1.e - ov := by
  simp only [chunkIter]
  split_ifs <;> rfl

lemma chunkAux_coverage (cs ov : Nat) (text : PyStr) :
    ∀ fuel start ws, chunkAux cs ov text fuel start = some ws →
      ∀ o, start ≤ o → o < text.length → ∃ w ∈ ws, w.s ≤ o ∧ o < w.e := by
  intro fuel
  induction fuel with
  | zero =>
    intro start ws h
    simp [chunkAux] at h
  | succ f ih =>
    intro start ws h o ho hol
    simp only [chunkAux] at h
    by_cases hs : start < text.length
    · rw [if_pos hs] at h
      rcases hrec : chunkAux cs ov text f (chunkIter cs ov text start).2
        with _ | ws'
      · rw [hrec] at h
        simp at h
      · rw [hrec] at h
        simp only [Option.some.injEq] at h
        subst h
        by_cases hoe : o < (chunkIter cs ov text start).1.e
        · refine ⟨(chunkIter cs ov text start).1, List.mem_cons_self _ _, ?_, hoe⟩
          rw [chunkIter_s]
          exact ho
        · have hnext : (chunkIter cs ov text start).2 ≤ o := by
            rw [chunkIter_next]
            omega
          obtain ⟨w, hw, hcov⟩ := ih _ _ hrec o hnext hol
          exact ⟨w, List.mem_cons_of_mem _ hw, hcov⟩
    · rw [if_neg hs] at h
      omega

/-! ### Claim C4 -/

/-- Counterexample to claim C4: with valid parameters (target 2,
overlap 0) on the text "ab  cd", the loop's middle window [2, 4) slices
the whitespace-only text "  ", which trims to empty and is dropped, so
offsets 2 and 3 are covered by no emitted chunk's [start, end) range. -/
theorem c4_counterexample :
    chunkRanges 2 0 exGapText 10 =
      some [⟨['a', 'b'], 0, 2⟩, ⟨['c', 'd'], 4, 6⟩]
    ∧ 2 < (pyStrip exGapText).length
    ∧ (0 : Nat) ≤ 0 ∧ 0 < 2
    ∧ ∀ ch ∈ [(⟨['a', 'b'], 0, 2⟩ : Chunk), ⟨['c', 'd'], 4, 6⟩],
        ¬(ch.startOff ≤ 2 ∧ 2 < ch.endOff) := by
  decide

/-- Claim C4 (amended): every character offset `o` of the stripped text is
contained in the `[start, end)` window examined by some iteration of
chunk_text's loop; a window whose slice trims to empty (whitespace-only)
emits no chunk, so such offsets can be covered by no emitted chunk — gaps
in emitted-chunk coverage occur exactly at dropped whitespace-only
windows. -/
theorem c4_window_coverage (cs ov : Nat) (t : PyStr) (fuel : Nat)
    (ws : List Window) (h : chunkWindows cs ov t fuel = some ws) :
    ∀ o, o < (pyStrip t).length → ∃ w ∈ ws, w.s ≤ o ∧ o < w.e := by
  intro o hol
  unfold chunkWindows at h
  by_cases ht : t = []
  · rw [ht, pyStrip_nil] at hol
    simp at hol
  · rw [if_neg ht] at h
    exact chunkAux_coverage cs ov (pyStrip t) fuel 0 ws h o (Nat.zero_le o) hol

/-- Witness for the amended C4 on the gap text. -/
theorem c4_window_coverage_witness :
    chunkWindows 2 0 exGapText 10 = some
      [⟨0, 2, some ['a', 'b']⟩, ⟨2, 4, none⟩, ⟨4, 6, some ['c', 'd']⟩]
    ∧ ∀ o, o < (pyStrip exGapText).length →
        ∃ w ∈ [(⟨0, 2, some ['a', 'b']⟩ : Window), ⟨2, 4, none⟩,
            ⟨4, 6, some ['c', 'd']⟩], w.s ≤ o ∧ o < w.e :=
  ⟨by decide, c4_window_coverage 2 0 exGapText 10 _ (by decide)⟩

lemma cut_lower (cs : Nat) (cut : Int) (h : 10 * cut > 6 * (cs : Int)) :
    (6 * cs) / 10 + 1 ≤ cut.toNat := by
  have hdm := Nat.div_add_mod (6 * cs) 10
  omega

lemma chunkMinStep_pos (cs ov : Nat) (hov : ov < cs)
    (hcut : ov ≤ (6 * cs) / 10) : 1 ≤ chunkMinStep cs ov := by
  unfold chunkMinStep
  omega

lemma chunkIter_progress (cs ov : Nat) (text : PyStr) (start : Nat)
    (hov : ov < cs) (hcut : ov ≤ (6 * cs) / 10) :
    start + chunkMinStep cs ov ≤ (chunkIter cs ov text start).2 := by
  have hm1 : chunkMinStep cs ov ≤ cs - ov := min_le_left _ _
  have hm2 : chunkMinStep cs ov ≤ (6 * cs) / 10 + 2 - ov := min_le_right _ _
  simp only [chunkIter]
  split_ifs with h1 h2
  · have hc := cut_lower cs _ h2
    dsimp only
    omega
  · dsimp only
    omega
  · dsimp only
    omega

lemma chunkAux_isSome (cs ov : Nat) (text : PyStr)
    (hov : ov < cs) (hcut : ov ≤ (6 * cs) / 10) :
    ∀ fuel start, text.length - start < fuel →
      (chunkAux cs ov text fuel start).isSome := by
  intro fuel
  induction fuel with
  | zero =>
    intro start h
    omega
  | succ f ih =>
    intro start h
    simp only [chunkAux]
    by_cases hs : start < text.length
    · rw [if_pos hs]
      have hp := chunkIter_progress cs ov text start hov hcut
      have hδ := chunkMinStep_pos cs ov hov hcut
      have hrec := ih (chunkIter cs ov text start).2 (by omega)
      rcases hx : chunkAux cs ov text f (chunkIter cs ov text start).2
        with _ | ws
      · rw [hx] at hrec
        simp at hrec
      · simp
    · rw [if_neg hs]
      simp

lemma chunkAux_length_bound (cs ov : Nat) (text : PyStr)
    (hov : ov < cs) (hcut : ov ≤ (6 * cs) / 10) :
    ∀ fuel start ws, chunkAux cs ov text fuel start = some ws →
      ws.length * chunkMinStep cs ov
        ≤ (text.length - start) + (chunkMinStep cs ov - 1) := by
  intro fuel
  induction fuel with
  | zero =>
    intro start ws h
    simp [chunkAux] at h
  | succ f ih =>
    intro start ws h
    simp only [chunkAux] at h
    by_cases hs : start < text.length
    · rw [if_pos hs] at h
      rcases hx : chunkAux cs ov text f (chunkIter cs ov text start).2
        with _ | ws'
      · rw [hx] at h
        simp at h
      · rw [hx] at h
        simp only [Option.some.injEq] at h
        subst h
        have hp := chunkIter_progress cs ov text start hov hcut
        have hrec := ih _ _ hx
        have hδ := chunkMinStep_pos cs ov hov hcut
        simp only [List.length_cons]
        have hexp : (ws'.length + 1) * chunkMinStep cs ov
            = ws'.length * chunkMinStep cs ov + chunkMinStep cs ov := by ring
        rw [hexp]
        rcases Nat.eq_zero_or_pos ws'.length with hL | hL
        · rw [hL] at hrec ⊢
          omega
        · have hLδ : chunkMinStep cs ov ≤ ws'.length * chunkMinStep cs ov :=
            Nat.le_mul_of_pos_left _ hL
          omega
    · rw [if_neg hs] at h
      simp only [Option.some.injEq] at h
      subst h
      simp

/-! ### Claim C5 -/

/-- Counterexample to claim C5: with overlap 9 < target_size 10 (valid
per the claim) on a text that makes the sentence-boundary cut fire, the
next window start computed from start 0 is again 0 — no forward progress
is made, the loop state repeats, and chunk_text never terminates (here:
still unfinished after 100 iterations of fuel). -/
theorem c5_counterexample :
    (chunkIter 10 9 exLoopText 0).2 = 0
    ∧ chunk_text 10 9 exLoopText 100 = none
    ∧ (9 : Nat) < 10
    ∧ pyStrip exLoopText = exLoopText := by
  refine ⟨by decide, by decide, by decide, by decide⟩

/-- Claim C5 (amended): whenever overlap < target_size and additionally
overlap ≤ ⌊0.6 · target_size⌋ (true for the configured CHUNK_SIZE = 5000
and CHUNK_OVERLAP = 300), chunk_text makes strict forward progress — every
iteration advances the window start by at least
δ = min(target_size − overlap, ⌊0.6 · target_size⌋ + 2 − overlap), which
is 2702 for the configured values — terminates within fuel len + 1, and
emits at most ⌈len / δ⌉ chunks.  Without the extra overlap bound the loop
can fail to progress (see the counterexample), and the originally claimed
⌈len / (target_size − overlap)⌉ bound must be weakened to ⌈len / δ⌉
because sentence-boundary cuts shorten the step. -/
theorem c5_progress_termination_bound (cs ov : Nat) (t : PyStr)
    (hov : ov < cs) (hcut : ov ≤ (6 * cs) / 10) :
    (∀ start, start + chunkMinStep cs ov
        ≤ (chunkIter cs ov (pyStrip t) start).2)
    ∧ (chunkWindows cs ov t ((pyStrip t).length + 1)).isSome
    ∧ ∀ l, chunk_text cs ov t ((pyStrip t).length + 1) = some l →
        l.length ≤ ((pyStrip t).length + (chunkMinStep cs ov - 1))
          / chunkMinStep cs ov := by
  refine ⟨fun start => chunkIter_progress cs ov (pyStrip t) start hov hcut,
    ?_, ?_⟩
  · unfold chunkWindows
    by_cases ht : t = []
    · simp [ht]
    · rw [if_neg ht]
      exact chunkAux_isSome cs ov (pyStrip t) hov hcut _ 0 (by omega)
  · intro l hl
    have hδ := chunkMinStep_pos cs ov hov hcut
    unfold chunk_text chunkWindows at hl
    by_cases ht : t = []
    · rw [if_pos ht] at hl
      simp only [Option.map_some'] at hl
      have : l = [] := by simpa using hl.symm
      subst this
      simp
    · rw [if_neg ht] at hl
      rcases hx : chunkAux cs ov (pyStrip t) ((pyStrip t).length + 1) 0
        with _ | ws
      · rw [hx] at hl
        simp at hl
      · rw [hx] at hl
        simp only [Option.map_some', Option.some.injEq] at hl
        have hlen : l.length ≤ ws.length := by
          rw [← hl]
          exact List.length_filterMap_le _ _
      -- hl : ws.filterMap kept = l  (direction checked below)
        have hb := chunkAux_length_bound cs ov (pyStrip t) hov hcut _ _ _ hx
        rw [Nat.le_div_iff_mul_le hδ]
        calc l.length * chunkMinStep cs ov
            ≤ ws.length * chunkMinStep cs ov :=
              Nat.mul_le_mul_right _ hlen
          _ ≤ ((pyStrip t).length - 0) + (chunkMinStep cs ov - 1) := hb
          _ = (pyStrip t).length + (chunkMinStep cs ov - 1) := by omega

/-- Witness for the amended C5 with target 10, overlap 3 on a short
text. -/
theorem c5_progress_termination_bound_witness :
    (3 : Nat) < 10 ∧ (3 : Nat) ≤ (6 * 10) / 10
    ∧ ((∀ start, start + chunkMinStep 10 3
          ≤ (chunkIter 10 3 (pyStrip exShortText) start).2)
      ∧ (chunkWindows 10 3 exShortText ((pyStrip exShortText).length + 1)).isSome
      ∧ ∀ l, chunk_text 10 3 exShortText
            ((pyStrip exShortText).length + 1) = some l →
          l.length ≤ ((pyStrip exShortText).length + (chunkMinStep 10 3 - 1))
            / chunkMinStep 10 3) :=
  ⟨by decide, by decide,
    c5_progress_termination_bound 10 3 exShortText (by decide) (by decide)⟩

/-! ### Claim C8 -/

/-- Counterexample to claim C8: the non-empty 8-character text
"abcdefgh" is strictly shorter than target_size 10, yet with overlap 9
(valid: 0 ≤ 9 < 10) chunk_text emits 8 chunks, not one: after the first
window consumes the whole text, the next start `end - overlap = 1` is
still inside the text, so overlapping tail chunks follow. -/
theorem c8_counterexample :
    exShortText.length < 10
    ∧ exShortText ≠ []
    ∧ (chunk_text 10 9 exShortText 20).map List.length = some 8
    ∧ chunk_text 10 9 exShortText 20 ≠ some [pyStrip exShortText] := by
  refine ⟨by decide, by decide, by decide, by decide⟩

/-- Claim C8 (amended): a text whose trimmed form is non-empty and has
length at most target_size − overlap yields exactly one chunk, equal to
the whitespace-trimmed whole input.  (A whitespace-only input instead
yields no chunks, and a text with trimmed length in
(target_size − overlap, target_size) yields the whole trimmed text
followed by extra overlapping tail chunks, because the loop
unconditionally advances the start to end − overlap.) -/
theorem c8_short_text_single_chunk (cs ov : Nat) (t : PyStr)
    (hne : pyStrip t ≠ [])
    (hlen : (pyStrip t).length ≤ cs - ov) :
    chunk_text cs ov t ((pyStrip t).length + 1) = some [pyStrip t] := by
  have hl1 : 0 < (pyStrip t).length := List.length_pos.mpr hne
  have ht : t ≠ [] := by
    intro h0
    rw [h0, pyStrip_nil] at hne
    exact hne rfl
  have hlcs : (pyStrip t).length ≤ cs := le_trans hlen (Nat.sub_le _ _)
  have hiter : chunkIter cs ov (pyStrip t) 0
      = (⟨0, cs, some (pyStrip t)⟩, cs - ov) := by
    simp only [chunkIter]
    have hnotlt : ¬ (0 + cs < (pyStrip t).length) := by omega
    rw [if_neg hnotlt]
    have hslice : pySlice (pyStrip t) 0 (0 + cs) = pyStrip t := by
      unfold pySlice
      rw [List.drop_zero, Nat.sub_zero, Nat.zero_add,
        List.take_of_length_le hlcs]
    rw [hslice, pyStrip_idem]
    unfold keep
    rw [if_neg hne]
    simp
  have hstop : chunkAux cs ov (pyStrip t) (pyStrip t).length (cs - ov)
      = some [] := by
    obtain ⟨f, hf⟩ : ∃ f, (pyStrip t).length = f + 1 :=
      ⟨(pyStrip t).length - 1, by omega⟩
    rw [hf]
    simp only [chunkAux]
    rw [if_neg (by omega : ¬ (cs - ov < (pyStrip t).length))]
  have h2 : chunkAux cs ov (pyStrip t) ((pyStrip t).length + 1) 0
      = some [⟨0, cs, some (pyStrip t)⟩] := by
    simp only [chunkAux]
    rw [if_pos hl1, hiter]
    simp only
    rw [hstop]
  unfold chunk_text chunkWindows
  rw [if_neg ht, h2]
  simp [List.filterMap_cons]

/-- Witness for the amended C8 on the text " hi " (trimmed "hi"). -/
theorem c8_short_text_single_chunk_witness :
    pyStrip exWsText ≠ []
    ∧ (pyStrip exWsText).length ≤ 10 - 3
    ∧ chunk_text 10 3 exWsText ((pyStrip exWsText).length + 1)
        = some [pyStrip exWsText] :=
  ⟨by decide, by decide,
    c8_short_text_single_chunk 10 3 exWsText (by decide) (by decide)⟩

/-! ### Claim C6 -/

lemma splitext_inner_zip : splitextExt "inner.zip" = ".zip" := by decide

/-- Counterexample to claim C6: extracting an archive holding a chain of
5 nested ZIPs with MAX_ZIP_DEPTH = 3 does not degrade to a truncated
partial result — the ValueError raised by the depth guard propagates
through the un-guarded recursive calls and aborts the whole extraction,
returning no text and no members from any level (there is no truncated
flag in the result at all). -/
theorem c6_counterexample :
    extract_zip 3 100 10 0 [nest 5] = some (.error depthExceededMsg) := by
  rfl

/-- Claim C6 (amended): exceeding the maximum nesting depth is not
recoverable: the depth guard raises
ValueError("Nested ZIP depth exceeded allowed limit."), and since the
recursive call for nested ZIPs is not wrapped in any try/except the
exception propagates to the top, aborting the entire extraction — no
truncated flag exists and no text or members are returned, not even from
the levels within the limit. -/
theorem c6_depth_error_propagates (maxD maxF : Nat) (hmf : 1 ≤ maxF) :
    ∀ n fuel depth, maxD < depth + n → n < fuel →
      extract_zip maxD maxF fuel depth [nest n]
        = some (.error depthExceededMsg) := by
  intro n
  induction n with
  | zero =>
    intro fuel depth hd hf
    obtain ⟨f, rfl⟩ : ∃ f, fuel = f + 1 := ⟨fuel - 1, by omega⟩
    simp only [extract_zip]
    rw [if_pos (by omega : depth > maxD)]
  | succ n ih =>
    intro fuel depth hd hf
    obtain ⟨f, rfl⟩ : ∃ f, fuel = f + 1 := ⟨fuel - 1, by omega⟩
    by_cases hdd : depth > maxD
    · simp only [extract_zip]
      rw [if_pos hdd]
    · have hrec := ih f (depth + 1) (by omega) (by omega)
      simp only [extract_zip]
      rw [if_neg hdd]
      rw [if_neg (by simp; omega : ¬ ([nest (n + 1)].length > maxF))]
      show List.foldl _ _ [nest (n + 1)] = _
      rw [List.foldl_cons, List.foldl_nil]
      rw [nest]
      simp only [ZEntry.zname, ZEntry.zsize, splitext_inner_zip]
      rw [hrec]
      simp [ALLOWED_EXTENSIONS]

/-- Witness for the amended C6: a 4-deep chain at top level with the
configured limits. -/
theorem c6_depth_error_propagates_witness :
    (1 : Nat) ≤ 100 ∧ (3 : Nat) < 0 + 4 ∧ (4 : Nat) < 10
    ∧ extract_zip 3 100 10 0 [nest 4] = some (.error depthExceededMsg) :=
  ⟨by decide, by decide, by decide,
    c6_depth_error_propagates 3 100 (by decide) 4 10 0 (by decide) (by decide)⟩

/-! ### Claim C7 -/

/-- Counterexample to claim C7: an archive listing 101 members with the
configured limit 100 makes extract_zip raise
ValueError("ZIP contains 101 files (limit 100)") — extraction fails
outright; no first-100 member list, no truncated flag, no partial result
is returned. -/
theorem c7_counterexample :
    extract_zip 3 100 5 0 exManyEntries = some (.error (countMsg 101 100))
    ∧ countMsg 101 100 = "ZIP contains 101 files (limit 100)" :=
  ⟨rfl, rfl⟩

/-- Claim C7 (amended): exceeding the member-count limit makes extraction
fail instead of truncating: extract_zip raises a ValueError naming the
count and the limit and returns nothing, and main.safe_extract_zip
returns the empty string; neither keeps the first N members in listing
order nor sets any truncated flag. -/
theorem c7_count_error_no_truncation (maxD maxF fuel depth maxText : Nat)
    (es : List ZEntry) (sentries : List (String × String))
    (hd : depth ≤ maxD) (hf : 0 < fuel) (hn : maxF < es.length)
    (hs : maxF < sentries.length) :
    extract_zip maxD maxF fuel depth es
      = some (.error (countMsg es.length maxF))
    ∧ safe_extract_zip maxF maxText sentries = "" := by
  constructor
  · obtain ⟨f, rfl⟩ : ∃ f, fuel = f + 1 := ⟨fuel - 1, by omega⟩
    simp only [extract_zip]
    rw [if_neg (by omega : ¬ depth > maxD),
      if_pos (by omega : es.length > maxF)]
  · unfold safe_extract_zip
    rw [if_pos (by omega : sentries.length > maxF)]

/-- Witness for the amended C7 with main.py's limit of 30 on 31-member
listings. -/
theorem c7_count_error_no_truncation_witness :
    (0 : Nat) ≤ 3 ∧ (0 : Nat) < 5 ∧ 30 < exMany31.length
    ∧ 30 < exSez31.length
    ∧ (extract_zip 3 30 5 0 exMany31
        = some (.error (countMsg exMany31.length 30))
      ∧ safe_extract_zip 30 300000 exSez31 = "") :=
  ⟨by decide, by decide, by decide, by decide,
    c7_count_error_no_truncation 3 30 5 0 300000 exMany31 exSez31
      (by decide) (by decide) (by decide) (by decide)⟩
